import Mathlib

/-!
Verification development for the Tokyo personnel-directory compiler
(`compile_tokyo_dataframe.py` and `process_tokyo_directory.py`).

Text is modelled as a list of characters; every helper function below is a
direct shallow embedding of the corresponding Python function, keeping the
source's names and branch structure.  Float threshold comparisons
(`n / len > 0.4` and similar) are embedded as exact rational comparisons on
naturals (`5 * n > 2 * len`), which agree with the Python float semantics for
all realistic line lengths.
-/

namespace Tokyo

/-- One OCR text line, modelled as its list of characters. -/
abbrev Text := List Char

/-- Whitespace characters removed by Python `str.strip()` (ASCII whitespace
plus the ideographic space U+3000). -/
def isSpaceChar (c : Char) : Bool :=
  c = ' ' || c = '\t' || c = '\n' || c = '\r' || c = '\x0b' || c = '\x0c' || c = '　'

/-- Drop the longest suffix of characters satisfying `p` (structural version of
Python's right-strip). -/
def dropEnd (p : Char → Bool) : Text → Text
  | [] => []
  | c :: rest =>
    match dropEnd p rest with
    | [] => if p c then [] else [c]
    | r => c :: r

/-- Python `str.strip(chars)`: remove characters satisfying `p` from both ends. -/
def stripP (p : Char → Bool) (t : Text) : Text :=
  dropEnd p (t.dropWhile p)

/-- Python `str.strip()` with no argument: strip whitespace from both ends. -/
def strip (t : Text) : Text := stripP isSpaceChar t

/-- The literal string "nan" produced by `str()` on a pandas missing value. -/
def nanText : Text := ['n', 'a', 'n']

/-- Model of `str(row.get(col, '')).strip()` followed by the `if v == "nan": v = ""`
coercion used throughout the compiler. -/
def cleanField (t : Text) : Text :=
  let s := strip t
  if s = nanText then [] else s

/-- The sentinel position value "Unknown". -/
def unknownText : Text := ['U', 'n', 'k', 'n', 'o', 'w', 'n']

/-- The sentinel office value "Unknown Office". -/
def unknownOffice : Text :=
  ['U', 'n', 'k', 'n', 'o', 'w', 'n', ' ', 'O', 'f', 'f', 'i', 'c', 'e']

/-- Circle symbols optionally prefixed to office headers
(`circle_symbols = "◎〇O○o0〓●"`). -/
def circleSymbols : List Char := ['◎', '〇', 'O', '○', 'o', '0', '〓', '●']

/-- Opening brackets that mark an OCR-malformed header (`'({[（「【'`). -/
def openingBrackets : List Char := ['(', '{', '[', '（', '「', '【']

/-- Office-type ending characters
(`office_endings = set("課係所房合院室場局屋寮館康ム班部衛宿校署區")`). -/
def officeEndings : List Char :=
  ['課', '係', '所', '房', '合', '院', '室', '場', '局', '屋', '寮', '館',
   '康', 'ム', '班', '部', '衛', '宿', '校', '署', '區']

/-- Does the last character of `t` belong to `cs`?  (Python `t[-1] in cs`,
also used for `t.endswith(c)` checks.) -/
def lastCharIn (t : Text) (cs : List Char) : Bool :=
  match t.getLast? with
  | some e => e ∈ cs
  | none => false

/-- Python `is_header_candidate(text, headers_set)`: is the text likely an
office/department name?  Mirrors the Python function: strip, reject leading
brackets, strip leading circle symbols, check the crosswalk header set, then
the ending-character pattern (rejecting titles ending in 長). -/
def is_header_candidate (text0 : Text) (headers_set : List Text) : Bool :=
  let text := strip text0
  match text with
  | [] => false
  | c :: _ =>
    if c ∈ openingBrackets then false
    else
      let cleaned := strip (text.dropWhile (fun d => d ∈ circleSymbols))
      if cleaned = [] then false
      else if text ∈ headers_set ∨ cleaned ∈ headers_set then true
      else if cleaned.length < 15 ∧ lastCharIn cleaned officeEndings then
        decide (text.getLast? ≠ some '長')
      else false

/-- One input CSV row (one OCR fragment), with the columns the compiler
reads.  Missing columns / pandas NaN values surface to the compiler as the
empty string or the literal "nan", exactly as `str(row.get(col, ''))` does;
`folder` (the page number) is modelled as an integer, `year` as an optional
raw value. -/
structure Row where
  name : Text := []
  position : Text := []
  raw_text : Text := []
  salary : Text := []
  rank : Text := []
  grade : Text := []
  year : Option Text := none
  folder : Int := 0
  image : Text := []
  x : Int := 0
  y : Int := 0
deriving DecidableEq, Repr

/-- Python `c.isascii() and c.isalpha()`: an ASCII Latin letter. -/
def isAsciiAlpha (c : Char) : Bool :=
  ('A' ≤ c ∧ c ≤ 'Z') ∨ ('a' ≤ c ∧ c ≤ 'z')

/-- Decimal digit characters (ASCII and fullwidth), modelling Python
`c.isdigit()` / regex `\d` on the character repertoire of this corpus. -/
def isDigitChar (c : Char) : Bool :=
  ('0' ≤ c ∧ c ≤ '9') ∨ ('０' ≤ c ∧ c ≤ '９')

/-- Kanji numerals (`kanji_nums = set('一二三四五六七八九十百千万〇零')`). -/
def kanjiNums : List Char :=
  ['一', '二', '三', '四', '五', '六', '七', '八', '九', '十',
   '百', '千', '万', '〇', '零']

/-- Classical grammatical particles (`set('ハノヲニスル')`). -/
def classicalParticles : List Char := ['ハ', 'ノ', 'ヲ', 'ニ', 'ス', 'ル']

/-- Characters of the page-reference class `[…・．\.]`. -/
def dotChars : List Char := ['…', '・', '．', '.']

/-- Regex `[…・．\.]{2,}`: two adjacent characters of the dot class. -/
def hasDoubleDot : Text → Bool
  | a :: b :: rest => (a ∈ dotChars ∧ b ∈ dotChars) || hasDoubleDot (b :: rest)
  | _ => false

/-- Python `pat in t`: does `pat` occur as a contiguous substring of `t`? -/
def containsSeq (pat : Text) : Text → Bool
  | [] => pat = ([] : Text)
  | c :: rest => pat.isPrefixOf (c :: rest) || containsSeq pat rest

/-- Library-stamp keywords (`r'図書館|蔵書|東京都立'`). -/
def libraryStamps : List Text :=
  [['図', '書', '館'], ['蔵', '書'], ['東', '京', '都', '立']]

/-- Kanji digits of the phone/address regex class `[〇一二三四五六七八九十]`. -/
def kanjiDigitsBan : List Char :=
  ['〇', '一', '二', '三', '四', '五', '六', '七', '八', '九', '十']

/-- Regex `[〇一二三四五六七八九十\d].*番`: a numeral character followed
somewhere later by 番. -/
def numThenBan : Text → Bool
  | [] => false
  | c :: rest =>
    ((c ∈ kanjiDigitsBan ∨ isDigitChar c) ∧ rest.contains '番') || numThenBan rest

/-- Python `is_likely_noise(row)`: eight independent OCR-noise signals, first true
one short-circuits.  Field accesses mirror the Python exactly: `raw_text`,
`name` and `position` are used raw (unstripped, no "nan" coercion). -/
def is_likely_noise (row : Row) : Bool :=
  let raw := row.raw_text
  let name := row.name
  if raw.length > 3 ∧ 5 * raw.countP isAsciiAlpha > 2 * raw.length then true
  else if raw.length > 25 ∧ row.position = unknownText ∧
      10 * raw.dedup.length > 7 * raw.length then true
  else if name.length = 1 ∧ raw.length > 15 then true
  else if hasDoubleDot raw then true
  else if raw.length > 8 ∧ 20 * raw.countP (· ∈ classicalParticles) > 3 * raw.length then true
  else if libraryStamps.any (fun s => containsSeq s raw) then true
  else if raw.length > 2 ∧
      2 * raw.countP (fun c => isDigitChar c ∨ c ∈ kanjiNums) > raw.length then true
  else if raw.contains '番' ∧ row.position = unknownText ∧ numThenBan raw then true
  else false

/-- Python `is_position_only_row(row, known_positions)`: detect a standalone
position-header line (three cases in source order). -/
def is_position_only_row (row : Row) (known_positions : List Text) :
    Bool × Option Text :=
  let pos := cleanField row.position
  let name := cleanField row.name
  let raw := strip row.raw_text
  if pos ≠ [] ∧ pos ≠ unknownText ∧ name = [] then (true, some pos)
  else if raw ∈ known_positions then (true, some raw)
  else if name ∈ known_positions ∧ (pos = [] ∨ pos = unknownText) then (true, some name)
  else (false, none)

/-- CJK-ideograph or katakana character (ranges 4E00–9FFF, 30A0–30FF,
3400–4DBF, as in `is_plausible_name`). -/
def isCJK (c : Char) : Bool :=
  ('一' ≤ c ∧ c ≤ '鿿') ∨ ('゠' ≤ c ∧ c ≤ 'ヿ') ∨
    ('㐀' ≤ c ∧ c ≤ '䶿')

/-- Calendar characters rejected by the heuristic fallback (`[年月日]`). -/
def calendarChars : List Char := ['年', '月', '日']

/-- Era/regulatory vocabulary (`昭和|大正|明治|平成|現在|以上|以下`). -/
def eraWords : List Text :=
  [['昭', '和'], ['大', '正'], ['明', '治'], ['平', '成'],
   ['現', '在'], ['以', '上'], ['以', '下']]

/-- Rank/regulation characters (`[號條項則級俸給勳位階官]`). -/
def rankLawChars : List Char :=
  ['號', '條', '項', '則', '級', '俸', '給', '勳', '位', '階', '官']

/-- Office-suffix characters of the fallback (`[課係局部署區室寮所院庁]$`). -/
def officeSuffixChars : List Char :=
  ['課', '係', '局', '部', '署', '區', '室', '寮', '所', '院', '庁']

/-- Grammatical particles of the fallback (`[のをはがでノヲハガデ]`). -/
def particleChars : List Char :=
  ['の', 'を', 'は', 'が', 'で', 'ノ', 'ヲ', 'ハ', 'ガ', 'デ']

/-- Heuristic name check used when the morphological analyzer is
unavailable (the fallback tail of `is_plausible_name`). -/
def heuristicNameCheck (name : Text) : Bool :=
  if name.any (· ∈ calendarChars) then false
  else if eraWords.any (fun w => containsSeq w name) then false
  else if name.any (· ∈ rankLawChars) then false
  else if lastCharIn name officeSuffixChars ∧ name.length > 2 then false
  else if name.length > 3 ∧ name.any (· ∈ particleChars) then false
  else if name.all (· ∈ kanjiNums) then false
  else true

/-- Python `is_plausible_name(name)`: hard length/CJK constraints, then either the
morphological-analyzer oracle (when available) or the heuristic fallback.
The analyzer (`_sudachi_has_person_name`, including its katakana given-name
allowlist) is an external capability, modelled as an opaque oracle. -/
def is_plausible_name (oracle : Option (Text → Bool)) (name0 : Text) : Bool :=
  if name0 = [] then false
  else
    let name := strip name0
    if name.length < 2 ∨ name.length > 8 then false
    else if 5 * name.countP isCJK < 4 * name.length then false
    else
      match oracle with
      | some f => f name
      | none => heuristicNameCheck name

/-- The text "male". -/
def maleText : Text := ['m', 'a', 'l', 'e']

/-- The text "female". -/
def femaleText : Text := ['f', 'e', 'm', 'a', 'l', 'e']

/-- Legacy surname blocklist (`^(金子|増子|尼子|砂子|白子|呼子|舞子|神子)$`). -/
def surnameBlocklistLegacy : List Text :=
  [['金', '子'], ['増', '子'], ['尼', '子'], ['砂', '子'],
   ['白', '子'], ['呼', '子'], ['舞', '子'], ['神', '子']]

/-- Legacy feminine trailing characters (`[子枝江代紀美恵貴]$|婦$`). -/
def femaleEndingsLegacy : List Char :=
  ['子', '枝', '江', '代', '紀', '美', '恵', '貴', '婦']

/-- Regex `^[小]?[佐]?[美]`: the name starts with 美, 小美, 佐美 or 小佐美. -/
def femaleStartPat (t : Text) : Bool :=
  match t with
  | '美' :: _ => true
  | '小' :: '美' :: _ => true
  | '佐' :: '美' :: _ => true
  | '小' :: '佐' :: '美' :: _ => true
  | _ => false

/-- Python `classify_gender_legacy(name)`: legacy R-heuristic gender classifier. -/
def classify_gender_legacy (name0 : Text) : Text :=
  let name := strip name0
  if name = [] then []
  else if name ∈ surnameBlocklistLegacy then maleText
  else if lastCharIn name femaleEndingsLegacy ∨ femaleStartPat name then femaleText
  else maleText

/-- Modern surname blocklist (22 surnames ending in 子). -/
def surnameBlocklistModern : List Text :=
  [['金', '子'], ['増', '子'], ['尼', '子'], ['砂', '子'],
   ['白', '子'], ['呼', '子'], ['舞', '子'], ['神', '子'],
   ['平', '子'], ['星', '子'], ['鳴', '子'], ['銚', '子'],
   ['逗', '子'], ['厨', '子'], ['対', '子'], ['硝', '子'],
   ['茄', '子'], ['種', '子'], ['扇', '子'], ['格', '子'],
   ['障', '子'], ['帽', '子']]

/-- Modern feminine trailing characters
(`[子枝江代紀美恵貴乃花世奈穂織里香]$|婦$`). -/
def femaleEndingsModern : List Char :=
  ['子', '枝', '江', '代', '紀', '美', '恵', '貴', '乃', '花', '世',
   '奈', '穂', '織', '里', '香', '婦']

/-- Katakana female given names of the modern classifier (30 readings). -/
def katakanaFemale : List Text :=
  [['ヨ', 'シ'], ['キ', 'ヨ'], ['ハ', 'ナ'], ['ハ', 'ル'],
   ['フ', 'ミ'], ['ト', 'ミ'], ['チ', 'ヨ'], ['シ', 'ズ'],
   ['ウ', 'メ'], ['マ', 'ツ'], ['キ', 'ク'], ['ツ', 'ル'],
   ['ミ', 'ツ'], ['タ', 'ケ'], ['サ', 'ダ'], ['ト', 'ク'],
   ['マ', 'サ'], ['カ', 'ネ'], ['ヤ', 'ス'], ['ナ', 'カ'],
   ['タ', 'カ'], ['シ', 'ゲ'], ['ア', 'キ'], ['テ', 'ル'],
   ['ミ', 'ヨ'], ['ス', 'ミ'], ['ノ', 'ブ'], ['ヒ', 'デ'],
   ['ト', 'シ'], ['ク', 'ニ']]

/-- Python `classify_gender_modern(name)`: extended classifier with katakana
given-name matching. -/
def classify_gender_modern (name0 : Text) : Text :=
  let name := strip name0
  if name = [] then []
  else if name ∈ surnameBlocklistModern then maleText
  else if lastCharIn name femaleEndingsModern ∨ femaleStartPat name then femaleText
  else if name.length = 2 ∧ name ∈ katakanaFemale then femaleText
  else if name.length > 2 ∧ name.drop (name.length - 2) ∈ katakanaFemale then femaleText
  else maleText

/-- Kanji numeral class of the salary regex (`[一二三四五六七八九十百〇]`). -/
def kanjiSalNums : List Char :=
  ['一', '二', '三', '四', '五', '六', '七', '八', '九', '十', '百', '〇']

/-- Leftmost match of `月([一二三四五六七八九十百〇]+)`: returns the captured
numeral run and the text with the whole match removed. -/
def extractSal : Text → Option (Text × Text)
  | [] => none
  | c :: rest =>
    if c = '月' ∧ rest.takeWhile (· ∈ kanjiSalNums) ≠ [] then
      some (rest.takeWhile (· ∈ kanjiSalNums),
            rest.drop ((rest.takeWhile (· ∈ kanjiSalNums)).length))
    else
      match extractSal rest with
      | some (s, rem) => some (s, c :: rem)
      | none => none

/-- Kanji digits 一–十 (the class `[一二三四五六七八九十]`). -/
def kanjiTen : List Char :=
  ['一', '二', '三', '四', '五', '六', '七', '八', '九', '十']

/-- Leftmost match of `([正従][一二三四五六七八九十][位]?)`: returns the
matched court-rank string and the text with the match removed. -/
def extractRank : Text → Option (Text × Text)
  | [] => none
  | c :: rest =>
    if c = '正' ∨ c = '従' then
      match rest with
      | d :: rest2 =>
        if d ∈ kanjiTen then
          match rest2 with
          | '位' :: rest3 => some ([c, d, '位'], rest3)
          | _ => some ([c, d], rest2)
        else
          match extractRank rest with
          | some (r, rem) => some (r, c :: rem)
          | none => none
      | [] => none
    else
      match extractRank rest with
      | some (r, rem) => some (r, c :: rem)
      | none => none

/-- Python `parse_metadata_fallback(text)`: extract salary then court rank, then
strip spaces/commas (`text.strip(" ,　")`).  Returns (clean, salary, rank). -/
def parse_metadata_fallback (t : Text) : Text × Text × Text :=
  let p1 :=
    match extractSal t with
    | some (s, rem) => (rem, s)
    | none => (t, ([] : Text))
  let p2 :=
    match extractRank p1.1 with
    | some (r, rem) => (rem, r)
    | none => (p1.1, ([] : Text))
  (stripP (· ∈ [' ', ',', '　']) p2.1, p1.2, p2.2)

/-- One compiled output record (one person row of the output CSV). -/
structure Entry where
  year : Text
  office : Text
  position : Text
  grade : Text
  name : Text
  is_name : Bool
  drafted : Bool
  gender_legacy : Text
  gender_modern : Text
  salary : Text
  rank : Text
  page : Int
  image : Text
  x : Int
  y : Int
deriving DecidableEq, Repr

/-- The mutable compiler context threaded through the fragment stream:
`current_office`, `current_position`, `position_person_count`. -/
structure CState where
  office : Text
  position : Text
  count : Nat
deriving DecidableEq, Repr

/-- Initial compiler state (`"Unknown Office"`, `"Unknown"`, `0`). -/
def initState : CState := ⟨unknownOffice, unknownText, 0⟩

/-- Run configuration: the two lookup sets, the year column default, whether
the input has v2 columns, the optional page-range bounds, and the external
morphological-analyzer oracle (None when SudachiPy is unavailable). -/
structure Config where
  known_positions : List Text
  headers_set : List Text
  year_col : Text
  has_v2 : Bool
  start_page : Option Int
  end_page : Option Int
  sudachi : Option (Text → Bool)

/-- The fixed single-person positions (`{'課長', '主事', '技師'}`). -/
def single_person_positions : List Text :=
  [['課', '長'], ['主', '事'], ['技', '師']]

/-- Draft (military conscription) keywords
(`["應召", "召中", "應徴", "徴中", "入營", "營中"]`). -/
def draft_keywords : List Text :=
  [['應', '召'], ['召', '中'], ['應', '徴'],
   ['徴', '中'], ['入', '營'], ['營', '中']]

/-- Does the (cleaned) raw text contain a draft keyword? -/
def hasDraftKeyword (t : Text) : Bool :=
  draft_keywords.any (fun k => containsSeq k t)

/-- Page-range filter of Step 0a: active when either bound is given; a row
is dropped when its page lies outside `[start_page or 0, end_page or 999999]`. -/
def pageFiltered (cfg : Config) (row : Row) : Bool :=
  match cfg.start_page, cfg.end_page with
  | none, none => false
  | sp, ep =>
    row.folder < sp.getD 0 ∨ row.folder > ep.getD 999999

/-- Step 1 of the loop: office-header detection, checking `raw_name`, then a
non-empty `raw_pos`, then a `raw_text` with no name/position, in source
order.  Returns the text that becomes the new `current_office`, if any. -/
def officeMatch (cfg : Config) (row : Row) : Option Text :=
  let raw_name := cleanField row.name
  let raw_pos := cleanField row.position
  let raw_text := cleanField row.raw_text
  if is_header_candidate raw_name cfg.headers_set then some raw_name
  else if raw_pos ≠ [] ∧ is_header_candidate raw_pos cfg.headers_set then some raw_pos
  else if raw_text ≠ [] ∧ raw_name = [] ∧ raw_pos = [] ∧
      is_header_candidate raw_text cfg.headers_set then some raw_text
  else none

/-- The record-construction part of Step 3 (the `entry = {...}` dict of the
source): builds the person record from the current state, the fragment's
fields, and the already-computed effective position `pos`. -/
def plainEntry (cfg : Config) (s : CState) (row : Row) (pos : Text) : Entry :=
  let raw_name := cleanField row.name
  let raw_text := cleanField row.raw_text
  let meta :=
    if cfg.has_v2 then
      (raw_name, cleanField row.salary, cleanField row.rank,
       cleanField row.grade)
    else
      let m := parse_metadata_fallback raw_name
      (m.1, m.2.1, m.2.2, ([] : Text))
  let name_flag := is_plausible_name cfg.sudachi meta.1
  { year := row.year.getD cfg.year_col,
    office := s.office,
    position := pos,
    grade := meta.2.2.2,
    name := meta.1,
    is_name := name_flag,
    drafted := hasDraftKeyword raw_text,
    gender_legacy := if name_flag then classify_gender_legacy meta.1 else [],
    gender_modern := if name_flag then classify_gender_modern meta.1 else [],
    salary := meta.2.1,
    rank := meta.2.2.1,
    page := row.folder,
    image := row.image,
    x := row.x,
    y := row.y }

/-- One iteration of the main compilation loop of
`compile_tokyo_dataframe.main`: page filter, noise filter, office-header
detection, standalone-position detection, then person-row processing with the
explicit-position / single-person / propagation rules and record emission. -/
def step (cfg : Config) (acc : CState × List Entry) (row : Row) :
    CState × List Entry :=
  let s := acc.1
  let recs := acc.2
  let raw_name := cleanField row.name
  let raw_pos := cleanField row.position
  if pageFiltered cfg row then acc
  else if is_likely_noise row then acc
  else
    match officeMatch cfg row with
    | some t => ({ s with office := t }, recs)
    | none =>
      let ipor := is_position_only_row row cfg.known_positions
      if ipor.1 then ({ s with position := ipor.2.getD [], count := 0 }, recs)
      else
        if raw_name ≠ [] ∨ raw_pos ≠ [] then
          let ep :=
            if raw_pos ≠ [] ∧ raw_pos ≠ unknownText then
              (raw_pos, { s with position := raw_pos, count := 1 })
            else if s.position ≠ unknownText then
              if s.position ∈ single_person_positions ∧ s.count ≥ 1 then
                (unknownText, s)
              else
                (s.position, { s with count := s.count + 1 })
            else (unknownText, s)
          (ep.2, recs ++ [plainEntry cfg s row ep.1])
        else acc

/-- The whole compilation loop: fold `step` over the fragment stream from the
initial state with an empty record accumulator. -/
def compileRows (cfg : Config) (rows : List Row) : CState × List Entry :=
  rows.foldl (step cfg) (initState, [])

/-- The emitted output rows of a run. -/
def compileOutput (cfg : Config) (rows : List Row) : List Entry :=
  (compileRows cfg rows).2

/-- The crosswalk reference table, reduced to what the loader reads: the
values of each present title-alias column, and the `Japanese` values of rows
flagged `Is_Header == 1`. -/
structure Crosswalk where
  titleColValues : List (List Text)
  headerValues : List Text

/-- The lookup loader of `main` (lines 339–359): a missing or unreadable
crosswalk (`none`, covering both the `os.path.exists` guard and the bare
`except: pass`) degrades to empty lookup sets; otherwise titles are the
stripped non-empty values of all alias columns, deduplicated. -/
def loadLookups : Option Crosswalk → List Text × List Text
  | none => ([], [])
  | some cw =>
    (((cw.titleColValues.map fun col => (col.map strip).filter (· ≠ [])).flatten).dedup,
     cw.headerValues.dedup)

/-- The whole program after argument parsing: load lookups from the (possibly
missing) crosswalk, then run the compilation loop. -/
def runCompiler (cw : Option Crosswalk) (year_col : Text) (has_v2 : Bool)
    (sp ep : Option Int) (oracle : Option (Text → Bool)) (rows : List Row) :
    List Entry :=
  compileOutput
    { known_positions := (loadLookups cw).1,
      headers_set := (loadLookups cw).2,
      year_col := year_col, has_v2 := has_v2,
      start_page := sp, end_page := ep, sudachi := oracle } rows

/-- Grade-marker characters of `GRADE_RE` (`[上中下等級]`). -/
def gradeMarkers : List Char := ['上', '中', '下', '等', '級']

/-- Model of `GRADE_RE.match(text)` for `^([一二三四五六七八九十]+[上中下等級])`:
a non-empty leading kanji-digit run followed by a grade marker.  Returns the
matched prefix and the rest.  (The digit and marker classes are disjoint, so
the greedy `+` is exactly the maximal leading digit run.) -/
def gradeMatch (text : Text) : Option (Text × Text) :=
  let ds := text.takeWhile (· ∈ kanjiTen)
  if ds = [] then none
  else
    match text.drop ds.length with
    | m :: rest => if m ∈ gradeMarkers then some (ds ++ [m], rest) else none
    | [] => none

/-- The body of the `for title in known_titles` loop of `match_position`:
replace the best match so far when `t` is a prefix of `text` and is strictly
longer than the current best (or there is none yet). -/
def pickLonger (text : Text) (best : Option Text) (t : Text) : Option Text :=
  if t.isPrefixOf text then
    match best with
    | none => some t
    | some b => if t.length > b.length then some t else best
  else best

/-- The `for title in known_titles` loop of `match_position`: keep the first
seen title of maximal length among the titles that are prefixes of `text`. -/
def bestPrefixTitle (text : Text) (titles : List Text) : Option Text :=
  titles.foldl (pickLonger text) none

/-- The grade-prefix retry of `match_position` (its step 2 and step 3): strip
a leading grade prefix and rerun the title loop; when that best match is also
falsy, return "Unknown" with the original text. -/
def gradeRetry (text : Text) (known_titles : List Text) :
    Text × Text × Text :=
  match gradeMatch text with
  | some (gp, rest) =>
    (match bestPrefixTitle rest known_titles with
     | some b =>
       if b = [] then (unknownText, [], text)
       else (b, gp, strip (rest.drop b.length))
     | none => (unknownText, [], text))
  | none => (unknownText, [], text)

/-- Python `match_position(text, known_titles)` from
`process_tokyo_directory.py`: longest-prefix title match guarded by the
falsy `if best_match:` check, retried after stripping a grade prefix;
returns (position, grade, remaining). -/
def match_position (text : Text) (known_titles : List Text) :
    Text × Text × Text :=
  if text = [] then (unknownText, [], text)
  else
    match bestPrefixTitle text known_titles with
    | some b =>
      if b = [] then gradeRetry text known_titles
      else (b, [], strip (text.drop b.length))
    | none => gradeRetry text known_titles

/-- A fragment that reaches Step 3 of the loop as a plain name row: it
survives the page and noise filters, is neither an office header nor a
standalone position header, and carries a non-empty name with no explicit
position value. -/
def plainNameRow (cfg : Config) (row : Row) : Prop :=
  pageFiltered cfg row = false ∧ is_likely_noise row = false ∧
    officeMatch cfg row = none ∧
    (is_position_only_row row cfg.known_positions).1 = false ∧
    cleanField row.name ≠ [] ∧ cleanField row.position = []

instance (cfg : Config) (row : Row) : Decidable (plainNameRow cfg row) := by
  unfold plainNameRow
  infer_instance

/-- Sample configuration: one known position 書記, no known headers, v2
columns, no page range, no morphological analyzer. -/
def cfgShoki : Config :=
  { known_positions := [['書', '記']], headers_set := [],
    year_col := ['y'], has_v2 := true,
    start_page := none, end_page := none, sudachi := none }

/-- Sample configuration: one known position 課長, otherwise as `cfgShoki`. -/
def cfgKacho : Config :=
  { known_positions := [['課', '長']], headers_set := [],
    year_col := ['y'], has_v2 := true,
    start_page := none, end_page := none, sudachi := none }

/-- Sample configuration with empty lookup sets. -/
def cfgEmpty : Config :=
  { known_positions := [], headers_set := [],
    year_col := ['y'], has_v2 := true,
    start_page := none, end_page := none, sudachi := none }

/-- Lookup lists in one order (with 所得税課 as a known office header). -/
def cfgPermA : Config :=
  { known_positions := [['書', '記'], ['課', '長']],
    headers_set := [['所', '得', '税', '課']],
    year_col := ['y'], has_v2 := true,
    start_page := none, end_page := none, sudachi := none }

/-- The same lookup sets as `cfgPermA`, listed in another order and with a
duplicate — equal as sets, different as lists. -/
def cfgPermB : Config :=
  { known_positions := [['課', '長'], ['書', '記'], ['課', '長']],
    headers_set := [['所', '得', '税', '課']],
    year_col := ['y'], has_v2 := true,
    start_page := none, end_page := none, sudachi := none }

/-- A noisy cross-column fragment: raw text "ABCDE" (100% Latin). -/
def rowLatinLong : Row := { raw_text := ['A', 'B', 'C', 'D', 'E'] }

/-- A short Latin fragment "ABC" with an attached name: Latin density 100%
but raw length only 3. -/
def rowLatinShort : Row :=
  { raw_text := ['A', 'B', 'C'], name := ['田', '中', '太', '郎'] }

/-- A standalone position-header fragment whose raw text is 書記. -/
def rowShokiHeader : Row := { raw_text := ['書', '記'] }

/-- An office-header fragment: the name field reads 所得税課. -/
def rowOffice : Row := { name := ['所', '得', '税', '課'] }

/-- A plain name fragment 田中太郎. -/
def rowTanaka : Row := { name := ['田', '中', '太', '郎'] }

/-- A second plain name fragment 佐藤次郎. -/
def rowSato : Row := { name := ['佐', '藤', '次', '郎'] }

/-- A draft-marker-only fragment: raw text 應召, no name, no position. -/
def rowDraftMarker : Row := { raw_text := ['應', '召'] }

/-- A character not satisfying `p` survives at the head of `dropEnd p`. -/
theorem dropEnd_cons_of_neg {p : Char → Bool} {c : Char} (ts : Text)
    (hc : p c = false) : ∃ t, dropEnd p (c :: ts) = c :: t := by
  cases h : dropEnd p ts with
  | nil => exact ⟨[], by simp [dropEnd, h, hc]⟩
  | cons a r => exact ⟨a :: r, by simp [dropEnd, h]⟩

/-- A non-whitespace character survives at the head of `strip`. -/
theorem strip_cons_of_not_space {c : Char} (ts : Text)
    (hc : isSpaceChar c = false) : ∃ t, strip (c :: ts) = c :: t := by
  have hdw : (c :: ts).dropWhile isSpaceChar = c :: ts := by
    simp [List.dropWhile, hc]
  obtain ⟨t, ht⟩ := dropEnd_cons_of_neg (p := isSpaceChar) ts hc
  exact ⟨t, by simpa [strip, stripP, hdw] using ht⟩

/-- Opening brackets are not whitespace. -/
theorem openingBracket_not_space {c : Char} (hc : c ∈ openingBrackets) :
    isSpaceChar c = false := by
  simp only [openingBrackets, List.mem_cons, List.not_mem_nil, or_false] at hc
  rcases hc with rfl | rfl | rfl | rfl | rfl | rfl <;> decide

/-- C10: a non-empty text whose first character is an opening bracket
(`'({[（「【'`) is never accepted as an office header, even when the text (or
its circle-stripped form) appears verbatim in the known header set — so such
a fragment can never update `current_office`. -/
theorem bracket_text_never_header (c : Char) (ts : Text)
    (headers_set : List Text) (hc : c ∈ openingBrackets) :
    is_header_candidate (c :: ts) headers_set = false := by
  obtain ⟨t, ht⟩ := strip_cons_of_not_space ts (openingBracket_not_space hc)
  simp [is_header_candidate, ht, hc]

/-- Witness for C10 at a concrete bracket-prefixed member of the header set. -/
theorem bracket_text_never_header_witness :
    '（' ∈ openingBrackets ∧
      is_header_candidate ['（', '総', '務', '課']
        [['（', '総', '務', '課']] = false :=
  ⟨by decide, bracket_text_never_header '（' ['総', '務', '課'] _ (by decide)⟩

/-- C1 (counterexample): an Office fragment does NOT blank the position
context.  After a 書記 position header sets `current_position := 書記`, the
office fragment 所得税課 updates `current_office` but leaves
`current_position` at 書記 — not the default "Unknown" the claim requires. -/
theorem office_fragment_position_cex :
    compileRows cfgShoki [rowShokiHeader, rowOffice] =
      (⟨['所', '得', '税', '課'], ['書', '記'], 0⟩, []) ∧
      (['書', '記'] : Text) ≠ unknownText := by
  decide

/-- C1 (amended): a fragment classified as an Office header (surviving the
page and noise filters) sets `current_office` to the matched text and emits
no record, but leaves `current_position` and `position_person_count`
unchanged. -/
theorem office_fragment_updates_office_only (cfg : Config) (s : CState)
    (recs : List Entry) (row : Row) (t : Text)
    (hpg : pageFiltered cfg row = false)
    (hns : is_likely_noise row = false)
    (hof : officeMatch cfg row = some t) :
    step cfg (s, recs) row = (⟨t, s.position, s.count⟩, recs) := by
  simp [step, hpg, hns, hof]

/-- Witness for C1's amended theorem at a concrete office fragment. -/
theorem office_fragment_updates_office_only_witness :
    step cfgShoki (⟨unknownOffice, ['書', '記'], 3⟩, []) rowOffice =
      (⟨['所', '得', '税', '課'], ['書', '記'], 3⟩, []) :=
  office_fragment_updates_office_only cfgShoki ⟨unknownOffice, ['書', '記'], 3⟩
    [] rowOffice ['所', '得', '税', '課'] (by decide) (by decide) (by decide)

/-- C2 (counterexample): a draft-marker fragment (raw text 應召) following an
appended record does NOT set `drafted` on that record: the output still holds
exactly one record with `drafted = false`. -/
theorem drafted_marker_cex :
    (compileOutput cfgEmpty [rowTanaka, rowDraftMarker]).map Entry.drafted =
      [false] := by
  decide

/-- C2 (amended): the record list is append-only — a processed fragment
either leaves it unchanged or appends exactly one new record — and the
`drafted` flag of an appended record is derived from the creating fragment's
own raw text (true iff it contains a draft keyword).  No fragment ever
mutates an earlier record. -/
theorem step_append_only_drafted_from_fragment (cfg : Config)
    (acc : CState × List Entry) (row : Row) :
    (step cfg acc row).2 = acc.2 ∨
      ∃ e, (step cfg acc row).2 = acc.2 ++ [e] ∧
        e.drafted = hasDraftKeyword (cleanField row.raw_text) := by
  obtain ⟨s, recs⟩ := acc
  unfold step
  dsimp only
  split
  · exact Or.inl rfl
  split
  · exact Or.inl rfl
  split
  · exact Or.inl rfl
  split
  · exact Or.inl rfl
  split
  · exact Or.inr ⟨_, rfl, rfl⟩
  · exact Or.inl rfl

/-- A single-person position title is never the "Unknown" sentinel. -/
theorem single_person_ne_unknown {t : Text}
    (h : t ∈ single_person_positions) : t ≠ unknownText := by
  simp only [single_person_positions, List.mem_cons, List.not_mem_nil,
    or_false] at h
  rcases h with rfl | rfl | rfl <;> decide

/-- On a plain name row, when the current position propagates (not blocked by
the single-person rule), the step appends one record with that position and
increments the person counter. -/
theorem step_plain_propagate (cfg : Config) (s : CState) (recs : List Entry)
    (row : Row) (h : plainNameRow cfg row)
    (hne : s.position ≠ unknownText)
    (hblock : ¬(s.position ∈ single_person_positions ∧ 1 ≤ s.count)) :
    step cfg (s, recs) row =
      ({ s with count := s.count + 1 },
       recs ++ [plainEntry cfg s row s.position]) := by
  obtain ⟨hpg, hns, hof, hip, hnm, hps⟩ := h
  simp [step, hpg, hns, hof, hip, hnm, hps, hne, hblock]

/-- On a plain name row, when the current position is a single-person title
already assigned to someone, the step appends one record with position
"Unknown" and leaves the state unchanged. -/
theorem step_plain_blocked (cfg : Config) (s : CState) (recs : List Entry)
    (row : Row) (h : plainNameRow cfg row)
    (hsp : s.position ∈ single_person_positions) (hc : 1 ≤ s.count) :
    step cfg (s, recs) row =
      (s, recs ++ [plainEntry cfg s row unknownText]) := by
  obtain ⟨hpg, hns, hof, hip, hnm, hps⟩ := h
  simp [step, hpg, hns, hof, hip, hnm, hps,
    single_person_ne_unknown hsp, hsp, hc]

/-- C3: under a freshly set single-person title (課長/主事/技師,
`position_person_count = 0`), two consecutive plain name fragments with no
explicit position yield: first record with that title, second record with
position "Unknown" — the title does not propagate once one person holds it. -/
theorem single_person_title_first_name_only (cfg : Config) (s : CState)
    (recs : List Entry) (r1 r2 : Row)
    (hsp : s.position ∈ single_person_positions) (hc : s.count = 0)
    (h1 : plainNameRow cfg r1) (h2 : plainNameRow cfg r2) :
    ∃ e1 e2,
      step cfg (step cfg (s, recs) r1) r2 =
        ({ s with count := 1 }, recs ++ [e1, e2]) ∧
      e1.position = s.position ∧ e2.position = unknownText := by
  have hne := single_person_ne_unknown hsp
  have hstep1 := step_plain_propagate cfg s recs r1 h1 hne
    (by rintro ⟨-, hge⟩; omega)
  rw [hstep1, hc]
  have hstep2 := step_plain_blocked cfg { s with count := 1 }
    (recs ++ [plainEntry cfg s r1 s.position]) r2 h2 hsp (by simp)
  refine ⟨plainEntry cfg s r1 s.position,
    plainEntry cfg { s with count := 0 + 1 } r2 unknownText, ?_, rfl, rfl⟩
  simpa using hstep2

/-- Witness for C3: 課長 header context, names 田中太郎 then 佐藤次郎;
first record gets 課長, second gets "Unknown". -/
theorem single_person_title_first_name_only_witness :
    ∃ e1 e2,
      step cfgKacho (step cfgKacho (⟨unknownOffice, ['課', '長'], 0⟩, []) rowTanaka)
          rowSato =
        (⟨unknownOffice, ['課', '長'], 1⟩, [e1, e2]) ∧
      e1.position = ['課', '長'] ∧ e2.position = unknownText := by
  have h := single_person_title_first_name_only cfgKacho
    ⟨unknownOffice, ['課', '長'], 0⟩ [] rowTanaka rowSato
    (by decide) rfl (by decide) (by decide)
  simpa using h

/-- C5: a non-empty explicit position value other than "Unknown" attached to
a person row always overrides: the record gets that position,
`current_position` is replaced by it, and `position_person_count` is set to
1, whatever the previous position and count were; `current_office` is
untouched. -/
theorem explicit_position_overrides (cfg : Config) (s : CState)
    (recs : List Entry) (row : Row)
    (hpg : pageFiltered cfg row = false)
    (hns : is_likely_noise row = false)
    (hof : officeMatch cfg row = none)
    (hip : (is_position_only_row row cfg.known_positions).1 = false)
    (hp1 : cleanField row.position ≠ [])
    (hp2 : cleanField row.position ≠ unknownText) :
    step cfg (s, recs) row =
      ({ s with position := cleanField row.position, count := 1 },
       recs ++ [plainEntry cfg s row (cleanField row.position)]) := by
  simp [step, hpg, hns, hof, hip, hp1, hp2]

/-- Witness for C5: explicit position 技手 on a name row overrides a
single-person 課長 context that already served one person. -/
theorem explicit_position_overrides_witness :
    step cfgKacho (⟨unknownOffice, ['課', '長'], 1⟩, [])
        { name := ['田', '中', '太', '郎'], position := ['技', '手'] } =
      (⟨unknownOffice, ['技', '手'], 1⟩,
       [plainEntry cfgKacho ⟨unknownOffice, ['課', '長'], 1⟩
          { name := ['田', '中', '太', '郎'], position := ['技', '手'] }
          ['技', '手']]) := by
  have h := explicit_position_overrides cfgKacho
    ⟨unknownOffice, ['課', '長'], 1⟩ []
    { name := ['田', '中', '太', '郎'], position := ['技', '手'] }
    (by decide) (by decide) (by decide) (by decide) (by decide) (by decide)
  simpa using h

/-- One loop iteration either keeps the best match or installs `t`, the
latter only when `t` is a prefix of the text. -/
theorem pickLonger_cases (text : Text) (best : Option Text) (t : Text) :
    pickLonger text best t = best ∨
      (pickLonger text best t = some t ∧ t.isPrefixOf text = true) := by
  by_cases hp : t.isPrefixOf text = true
  · cases best with
    | none => exact Or.inr ⟨by simp [pickLonger, hp], hp⟩
    | some b =>
      by_cases hl : t.length > b.length
      · exact Or.inr ⟨by simp [pickLonger, hp, hl], hp⟩
      · exact Or.inl (by simp [pickLonger, hp, hl])
  · exact Or.inl (by simp [pickLonger, hp])

/-- One loop iteration never shortens the best match. -/
theorem pickLonger_mono (text : Text) (t b : Text) :
    ∃ c, pickLonger text (some b) t = some c ∧ b.length ≤ c.length := by
  by_cases hp : t.isPrefixOf text = true
  · by_cases hl : t.length > b.length
    · exact ⟨t, by simp [pickLonger, hp, hl], Nat.le_of_lt hl⟩
    · exact ⟨b, by simp [pickLonger, hp, hl], Nat.le_refl _⟩
  · exact ⟨b, by simp [pickLonger, hp], Nat.le_refl _⟩

/-- After seeing a prefix title `t`, the best match is at least as long. -/
theorem pickLonger_ge (text : Text) (best : Option Text) (t : Text)
    (hp : t.isPrefixOf text = true) :
    ∃ c, pickLonger text best t = some c ∧ t.length ≤ c.length := by
  cases best with
  | none => exact ⟨t, by simp [pickLonger, hp], Nat.le_refl _⟩
  | some b =>
    by_cases hl : t.length > b.length
    · exact ⟨t, by simp [pickLonger, hp, hl], Nat.le_refl _⟩
    · exact ⟨b, by simp [pickLonger, hp, hl], by omega⟩

/-- Folding the loop from a defined best match yields a best match at least
as long. -/
theorem foldl_pickLonger_mono (text : Text) (ts : List Text) :
    ∀ b : Text, ∃ c, ts.foldl (pickLonger text) (some b) = some c ∧
      b.length ≤ c.length := by
  induction ts with
  | nil => exact fun b => ⟨b, rfl, Nat.le_refl _⟩
  | cons t ts ih =>
    intro b
    obtain ⟨c, hc, hbc⟩ := pickLonger_mono text t b
    obtain ⟨d, hd, hcd⟩ := ih c
    exact ⟨d, by rw [List.foldl_cons, hc, hd], Nat.le_trans hbc hcd⟩

/-- Soundness of the loop: a returned best match either was the incoming
accumulator or is a prefix title from the traversed list. -/
theorem foldl_pickLonger_sound (text : Text) (ts : List Text) :
    ∀ (acc : Option Text) (b : Text), ts.foldl (pickLonger text) acc = some b →
      acc = some b ∨ (b ∈ ts ∧ b.isPrefixOf text = true) := by
  induction ts with
  | nil => exact fun acc b h => Or.inl h
  | cons t ts ih =>
    intro acc b h
    rw [List.foldl_cons] at h
    rcases ih _ _ h with hacc | ⟨hm, hp⟩
    · rcases pickLonger_cases text acc t with heq | ⟨heq, hp⟩
      · exact Or.inl (heq ▸ hacc)
      · rw [heq] at hacc
        obtain rfl : t = b := Option.some_injective _ hacc
        exact Or.inr ⟨List.mem_cons_self _ _, hp⟩
    · exact Or.inr ⟨List.mem_cons_of_mem _ hm, hp⟩

/-- Maximality of the loop: every prefix title in the list is no longer than
the returned best match. -/
theorem foldl_pickLonger_max (text : Text) (ts : List Text) :
    ∀ (acc : Option Text) (u : Text), u ∈ ts → u.isPrefixOf text = true →
      ∃ b, ts.foldl (pickLonger text) acc = some b ∧ u.length ≤ b.length := by
  induction ts with
  | nil => intro acc u hu; exact absurd hu (List.not_mem_nil u)
  | cons t ts ih =>
    intro acc u hu hp
    rw [List.foldl_cons]
    rcases List.mem_cons.mp hu with rfl | hm
    · obtain ⟨c, hc, huc⟩ := pickLonger_ge text acc u hp
      rw [hc]
      obtain ⟨d, hd, hcd⟩ := foldl_pickLonger_mono text ts c
      exact ⟨d, hd, Nat.le_trans huc hcd⟩
    · exact ih _ u hm hp

/-- C4: title matching is longest-prefix-first.  Whenever some non-empty
known title is a prefix of the text (emptiness matters because the source
guards the loop result with the falsy `if best_match:`), `match_position`
returns a known title that is a prefix of the text, of maximal length among
all prefix titles, with the remaining text being the (stripped) suffix after
that title. -/
theorem match_position_longest (text : Text) (titles : List Text) (t : Text)
    (hmem : t ∈ titles) (hp : t.isPrefixOf text = true) (ht : t ≠ [])
    (hne : text ≠ []) :
    ∃ b, bestPrefixTitle text titles = some b ∧ b ∈ titles ∧
      b.isPrefixOf text = true ∧
      (∀ u ∈ titles, u.isPrefixOf text = true → u.length ≤ b.length) ∧
      match_position text titles = (b, [], strip (text.drop b.length)) := by
  obtain ⟨b, hb, hble⟩ := foldl_pickLonger_max text titles none t hmem hp
  have hb' : bestPrefixTitle text titles = some b := hb
  have hbne : b ≠ [] := by
    intro hnil
    rw [hnil] at hble
    simp at hble
    exact ht hble
  rcases foldl_pickLonger_sound text titles none b hb with h | ⟨hbm, hbp⟩
  · cases h
  refine ⟨b, hb', hbm, hbp, ?_, ?_⟩
  · intro u hu hup
    obtain ⟨b2, hb2, hle⟩ := foldl_pickLonger_max text titles none u hu hup
    rw [hb] at hb2
    obtain rfl := Option.some_injective _ hb2
    exact hle
  · simp [match_position, hne, hb', hbne]

/-- Witness for C4: with titles {書記, 書記長} and text 書記長田中, the
matched title is the longer 書記長, not 書記, and the remainder is 田中. -/
theorem match_position_longest_witness :
    match_position ['書', '記', '長', '田', '中']
        [['書', '記'], ['書', '記', '長']] =
      (['書', '記', '長'], [], ['田', '中']) := by
  obtain ⟨b, hbest, hmem, hpref, hmax, heq⟩ :=
    match_position_longest ['書', '記', '長', '田', '中']
      [['書', '記'], ['書', '記', '長']] ['書', '記']
      (by decide) (by decide) (by decide) (by decide)
  have hb : b = ['書', '記', '長'] := by
    rcases List.mem_cons.mp hmem with rfl | hm
    · have := hmax ['書', '記', '長'] (by decide) (by decide)
      simp at this
    · simpa using hm
  rw [hb] at heq
  simpa using heq

/-- C6 (counterexample): the fragment with raw text "ABC" has Latin density
100% > 40%, yet the noise filter does NOT classify it as noise (signal 1
requires raw length > 3) and the compiler emits a record for it instead of
dropping it. -/
theorem latin_noise_cex :
    is_likely_noise rowLatinShort = false ∧
      (compileOutput cfgEmpty [rowLatinShort]).length = 1 := by
  decide

/-- C6 (amended): a fragment whose raw text is longer than 3 characters with
Latin density above 40% is classified as noise and dropped: no record is
emitted and office/position state is unchanged, whatever the surrounding
state. -/
theorem latin_noise_dropped (cfg : Config) (s : CState) (recs : List Entry)
    (row : Row) (hl : row.raw_text.length > 3)
    (hd : 5 * row.raw_text.countP isAsciiAlpha > 2 * row.raw_text.length) :
    is_likely_noise row = true ∧ step cfg (s, recs) row = (s, recs) := by
  have hn : is_likely_noise row = true := by
    unfold is_likely_noise
    rw [if_pos ⟨hl, hd⟩]
  exact ⟨hn, by simp [step, hn]⟩

/-- Witness for C6's amended theorem on the all-Latin fragment "ABCDE". -/
theorem latin_noise_dropped_witness :
    is_likely_noise rowLatinLong = true ∧
      step cfgEmpty (initState, []) rowLatinLong = (initState, []) :=
  latin_noise_dropped cfgEmpty initState [] rowLatinLong (by decide) (by decide)

/-- C7: the hard constraints of `is_plausible_name` dominate every oracle or
heuristic path: a candidate whose trimmed length is outside [2,8], or with
fewer than 80% CJK/katakana characters, is never a plausible name. -/
theorem plausible_name_hard_constraints (oracle : Option (Text → Bool))
    (name0 : Text)
    (h : (strip name0).length < 2 ∨ (strip name0).length > 8 ∨
      5 * (strip name0).countP isCJK < 4 * (strip name0).length) :
    is_plausible_name oracle name0 = false := by
  unfold is_plausible_name
  by_cases hn : name0 = []
  · rw [if_pos hn]
  · rw [if_neg hn]
    by_cases hlen : (strip name0).length < 2 ∨ (strip name0).length > 8
    · rw [if_pos hlen]
    · rcases h with h | h | h
      · exact absurd (Or.inl h) hlen
      · exact absurd (Or.inr h) hlen
      · rw [if_neg hlen, if_pos h]

/-- Witness for C7: a one-character candidate is rejected even under an
oracle that accepts everything. -/
theorem plausible_name_hard_constraints_witness :
    is_plausible_name (some fun _ => true) ['田'] = false :=
  plausible_name_hard_constraints (some fun _ => true) ['田']
    (Or.inl (by decide))

/-- The header classifier only consults the header lookup through membership,
so lists equal as sets are interchangeable. -/
theorem is_header_candidate_congr {hs1 hs2 : List Text}
    (h : ∀ t, t ∈ hs1 ↔ t ∈ hs2) (x : Text) :
    is_header_candidate x hs1 = is_header_candidate x hs2 := by
  unfold is_header_candidate
  simp only [h]

/-- The standalone-position detector only consults the position lookup
through membership. -/
theorem is_position_only_row_congr {kp1 kp2 : List Text}
    (h : ∀ t, t ∈ kp1 ↔ t ∈ kp2) (row : Row) :
    is_position_only_row row kp1 = is_position_only_row row kp2 := by
  unfold is_position_only_row
  simp only [h]

/-- One compilation step is invariant under reordering either lookup list. -/
theorem step_congr (cfg1 cfg2 : Config)
    (hkp : ∀ t, t ∈ cfg1.known_positions ↔ t ∈ cfg2.known_positions)
    (hhs : ∀ t, t ∈ cfg1.headers_set ↔ t ∈ cfg2.headers_set)
    (hyc : cfg1.year_col = cfg2.year_col) (hv2 : cfg1.has_v2 = cfg2.has_v2)
    (hsp : cfg1.start_page = cfg2.start_page)
    (hep : cfg1.end_page = cfg2.end_page)
    (hsud : cfg1.sudachi = cfg2.sudachi)
    (acc : CState × List Entry) (row : Row) :
    step cfg1 acc row = step cfg2 acc row := by
  have hic := fun x => is_header_candidate_congr hhs x
  have hip := fun r => is_position_only_row_congr hkp r
  have hof : ∀ r, officeMatch cfg1 r = officeMatch cfg2 r := by
    intro r; unfold officeMatch; simp only [hic]
  have hpf : ∀ r, pageFiltered cfg1 r = pageFiltered cfg2 r := by
    intro r; unfold pageFiltered; rw [hsp, hep]
  have hpe : ∀ s r p, plainEntry cfg1 s r p = plainEntry cfg2 s r p := by
    intro s r p; unfold plainEntry; rw [hyc, hv2, hsud]
  unfold step
  simp only [hof, hpf, hip, hpe]

/-- C8: the compiler is deterministic.  The compilation loop is a pure
function of the fragment sequence and the lookup sets: its output depends on
the lookups only through membership, so two runs with the same fragments and
set-equal lookups (in particular, two reruns on identical inputs, whatever
iteration order Python's sets present) produce identical output rows in
identical order. -/
theorem compiler_deterministic_lookup_invariant (cfg1 cfg2 : Config)
    (rows : List Row)
    (hkp : ∀ t, t ∈ cfg1.known_positions ↔ t ∈ cfg2.known_positions)
    (hhs : ∀ t, t ∈ cfg1.headers_set ↔ t ∈ cfg2.headers_set)
    (hyc : cfg1.year_col = cfg2.year_col) (hv2 : cfg1.has_v2 = cfg2.has_v2)
    (hsp : cfg1.start_page = cfg2.start_page)
    (hep : cfg1.end_page = cfg2.end_page)
    (hsud : cfg1.sudachi = cfg2.sudachi) :
    compileOutput cfg1 rows = compileOutput cfg2 rows := by
  have hstep := step_congr cfg1 cfg2 hkp hhs hyc hv2 hsp hep hsud
  unfold compileOutput compileRows
  have hfold : ∀ acc, rows.foldl (step cfg1) acc = rows.foldl (step cfg2) acc := by
    induction rows with
    | nil => intro acc; rfl
    | cons r rs ih =>
      intro acc
      rw [List.foldl_cons, List.foldl_cons, hstep, ih]
  rw [hfold]

/-- Witness for C8: the same run with the position lookup list permuted and
duplicated produces identical output. -/
theorem compiler_deterministic_lookup_invariant_witness :
    compileOutput cfgPermA [rowShokiHeader, rowOffice, rowTanaka] =
      compileOutput cfgPermB [rowShokiHeader, rowOffice, rowTanaka] :=
  compiler_deterministic_lookup_invariant cfgPermA cfgPermB
    [rowShokiHeader, rowOffice, rowTanaka]
    (by intro t; simp [cfgPermA, cfgPermB]; tauto)
    (by intro t; simp [cfgPermA, cfgPermB])
    rfl rfl rfl rfl rfl

/-- C9: a missing or unreadable crosswalk degrades to empty lookup sets and
the run continues: the program is the same total compilation as with empty
lookups, so position/office detection simply matches nothing and no failure
escapes the loader. -/
theorem lookup_load_failure_degrades (year_col : Text) (v2 : Bool)
    (sp ep : Option Int) (oracle : Option (Text → Bool)) (rows : List Row) :
    loadLookups none = ([], []) ∧
      runCompiler none year_col v2 sp ep oracle rows =
        compileOutput
          { known_positions := [], headers_set := [], year_col := year_col,
            has_v2 := v2, start_page := sp, end_page := ep,
            sudachi := oracle } rows :=
  ⟨rfl, rfl⟩

end Tokyo
